import Mathlib

/-!
Verification of the AMAGO actor-critic update engine (src/amago/agent.py,
src/amago/learning.py) against its natural-language specification.
Tensors are embedded as lists or index functions over `ℚ`; the per-element
slices relevant to each property are modelled faithfully from the source.
-/

namespace AmagoSpec

/-- Minimum reduction of a list, as in `tensor.min(dim).values`
(torch raises on an empty reduction dim; we return 0 there). -/
def listMin : List ℚ → ℚ
  | [] => 0
  | x :: xs => xs.foldl min x

/-- Mean reduction of a list, as in `tensor.mean(dim)`;
division by the length (zero on the empty list gives 0). -/
def listMean (l : List ℚ) : ℚ := l.sum / l.length

/-- `torch.take_along_dim` along the critic axis: select the entries of
`vals` at the given indices (the source indices come from
`torch.randint(low=0, high=C, ...)`, hence are in range; out of range
defaults to 0). -/
def takeAlongDim (vals : List ℚ) (idxs : List ℕ) : List ℚ :=
  idxs.map (fun i => vals.getD i 0)

/-- `Agent.forward` TD-target aggregation over the drawn critic subset
(src/amago/agent.py, Step 4): minimum (clipped double-Q) when
`online_coeff > 0`, otherwise mean. -/
def tdTargetScalar (onlineCoeff : ℚ) (ens : List ℚ) (idxs : List ℕ) : ℚ :=
  if 0 < onlineCoeff then listMin (takeAlongDim ens idxs)
  else listMean (takeAlongDim ens idxs)

/-- `MultiTaskAgent.forward` TD-target aggregation (src/amago/agent.py,
`td_target = td_target_rand.mean(2, keepdims=True)`): always the mean over
the drawn subset, regardless of `online_coeff`. -/
def tdTargetTwoHot (ens : List ℚ) (idxs : List ℕ) : ℚ :=
  listMean (takeAlongDim ens idxs)

/-- Target-critic values enter the TD target through the shifted slice
`s_rep[:, 1:]`/`ap[:, 1:]`: row `t` of the target tensor holds the
target critics' (PopArt-denormalized) value at absolute timestep `t + 1`.
`Qtarg t c` is that value for critic `c` at absolute time `t`. -/
def qTargSliceAt (Qtarg : ℕ → ℕ → ℚ) (t c : ℕ) : ℚ := Qtarg (t + 1) c

/-- Per-critic TD target of `Agent.forward` Step 4:
`ensemble_td_target = r + gamma * (1.0 - d) * q_targ_sp_ap_gp` with
`r = reward_multiplier * batch.rews`. -/
def ensembleTdTargetAt (mult gam : ℚ) (rew done : ℕ → ℚ) (Qtarg : ℕ → ℕ → ℚ)
    (C t : ℕ) : List ℚ :=
  (List.range C).map (fun c => mult * rew t + gam * (1 - done t) * qTargSliceAt Qtarg t c)

theorem getD_map_range (f : ℕ → ℚ) (n c : ℕ) (hc : c < n) :
    ((List.range n).map f).getD c 0 = f c := by
  rw [List.getD_eq_getElem ((List.range n).map f) 0 (by simpa using hc)]
  simp

theorem getD_map_nat (g : ℕ → ℚ) (idxs : List ℕ) (j : ℕ) (hj : j < idxs.length) :
    (idxs.map g).getD j 0 = g (idxs.getD j 0) := by
  rw [List.getD_eq_getElem (idxs.map g) 0 (by simpa using hj),
    List.getD_eq_getElem idxs 0 hj]
  simp

theorem takeAlongDim_range (l : List ℚ) :
    takeAlongDim l (List.range l.length) = l := by
  apply List.ext_getElem
  · simp [takeAlongDim]
  · intro i h1 h2
    simp only [takeAlongDim, List.getElem_map, List.getElem_range]
    exact List.getD_eq_getElem l 0 h2

end AmagoSpec

namespace AmagoSpec

/-- Claim C1 counterexample: in the distributional (`MultiTaskAgent`)
variant with `online_coeff = 1 > 0` and the drawn subset `[0, 1]` covering
the whole 2-critic ensemble with per-critic targets 0 and 2, the aggregated
target is the mean 1, not the elementwise minimum 0 that the claim
requires for a positive online coefficient. -/
theorem C1_counterexample :
    (0 : ℚ) < 1 ∧
      tdTargetTwoHot [0, 2] [0, 1] ≠ listMin (takeAlongDim [0, 2] [0, 1]) := by
  constructor
  · norm_num
  · have ht : takeAlongDim [0, 2] [0, 1] = [0, 2] := rfl
    have h2 : tdTargetTwoHot [0, 2] [0, 1] = 1 := by
      rw [tdTargetTwoHot, ht]
      norm_num [listMean]
    have h3 : listMin (takeAlongDim [0, 2] [0, 1]) = 0 := by
      rw [ht]
      norm_num [listMin]
    rw [h2, h3]
    norm_num

/-- Claim C1 (amended): in the scalar variant the drawn subset is
aggregated by elementwise minimum when `online_coeff > 0` and by mean
otherwise, while the distributional variant always aggregates by mean;
when the drawn index tensor enumerates the whole ensemble in order, the
scalar aggregate with `online_coeff > 0` equals the minimum across all
critic targets, with `online_coeff ≤ 0` the mean, and the distributional
aggregate the mean. -/
theorem C1_td_aggregation (coeff : ℚ) (ens : List ℚ) (idxs : List ℕ) :
    (0 < coeff → tdTargetScalar coeff ens idxs = listMin (takeAlongDim ens idxs)) ∧
    (¬ 0 < coeff → tdTargetScalar coeff ens idxs = listMean (takeAlongDim ens idxs)) ∧
    tdTargetTwoHot ens idxs = listMean (takeAlongDim ens idxs) ∧
    (idxs = List.range ens.length →
      (0 < coeff → tdTargetScalar coeff ens idxs = listMin ens) ∧
      (¬ 0 < coeff → tdTargetScalar coeff ens idxs = listMean ens) ∧
      tdTargetTwoHot ens idxs = listMean ens) := by
  refine ⟨fun h => by simp [tdTargetScalar, h], fun h => by simp [tdTargetScalar, h],
    rfl, fun hidx => ?_⟩
  subst hidx
  rw [show tdTargetScalar coeff ens (List.range ens.length) =
        tdTargetScalar coeff ens (List.range ens.length) from rfl]
  refine ⟨fun h => ?_, fun h => ?_, ?_⟩
  · simp [tdTargetScalar, h, takeAlongDim_range]
  · simp [tdTargetScalar, h, takeAlongDim_range]
  · simp [tdTargetTwoHot, takeAlongDim_range]

/-- Witness for `C1_td_aggregation` at a concrete input. -/
theorem C1_td_aggregation_witness :
    tdTargetScalar 1 [3, 1] [0, 1] = listMin [3, 1] :=
  ((C1_td_aggregation 1 [3, 1] [0, 1]).2.2.2 (by decide)).1 (by norm_num)

/-- Claim C2: each entry of the per-critic TD target at row `t` equals
`reward_multiplier * rew t + gamma * (1 - done t) * Qtarg (t + 1) c`, using
the target critics' value at the next timestep; the REDQ subset selection
keeps `num_critics_td` entries (one per drawn index, duplicates allowed,
i.e. with replacement), and each selected entry is the TD target of the
drawn critic index. -/
theorem C2_td_target_formula (mult gam : ℚ) (rew done : ℕ → ℚ)
    (Qtarg : ℕ → ℕ → ℚ) (C t : ℕ) (idxs : List ℕ) :
    (∀ c, c < C →
      (ensembleTdTargetAt mult gam rew done Qtarg C t).getD c 0 =
        mult * rew t + gam * (1 - done t) * Qtarg (t + 1) c) ∧
    (takeAlongDim (ensembleTdTargetAt mult gam rew done Qtarg C t) idxs).length
      = idxs.length ∧
    (∀ j, j < idxs.length → idxs.getD j 0 < C →
      (takeAlongDim (ensembleTdTargetAt mult gam rew done Qtarg C t) idxs).getD j 0 =
        mult * rew t + gam * (1 - done t) * Qtarg (t + 1) (idxs.getD j 0)) := by
  have hentry : ∀ c, c < C →
      (ensembleTdTargetAt mult gam rew done Qtarg C t).getD c 0 =
        mult * rew t + gam * (1 - done t) * Qtarg (t + 1) c := by
    intro c hc
    unfold ensembleTdTargetAt qTargSliceAt
    exact getD_map_range _ C c hc
  refine ⟨hentry, by simp [takeAlongDim], fun j hj hidx => ?_⟩
  unfold takeAlongDim
  rw [getD_map_nat _ idxs j hj]
  exact hentry _ hidx

/-- Witness for `C2_td_target_formula` at a concrete input. -/
theorem C2_td_target_formula_witness :
    (takeAlongDim
        (ensembleTdTargetAt 10 (1/2) (fun _ => 1) (fun _ => 0) (fun _ _ => 4) 2 0)
        [1, 1]).getD 0 0 =
      10 * (1 : ℚ) + (1/2) * (1 - 0) * 4 :=
  (C2_td_target_formula 10 (1/2) (fun _ => 1) (fun _ => 0) (fun _ _ => 4) 2 0
    [1, 1]).2.2 0 (by decide) (by decide)

/-- The five parameter groups of `Agent`: online critics and actor, their
EMA targets, and the "maximized" critic copy. Each group is embedded as
the flat list of its parameters. -/
structure SyncState where
  critics : List ℚ
  actor : List ℚ
  targetCritics : List ℚ
  targetActor : List ℚ
  maximizedCritics : List ℚ

/-- `Agent._full_copy`: `target_param.data.copy_(param.data)` over zipped
parameter lists. -/
def fullCopy (target online : List ℚ) : List ℚ :=
  (target.zip online).map Prod.snd

/-- `Agent._ema_copy`:
`target_param.data.copy_(target_param.data * (1 - tau) + param.data * tau)`. -/
def emaCopy (tau : ℚ) (target online : List ℚ) : List ℚ :=
  (target.zip online).map (fun p => p.1 * (1 - tau) + p.2 * tau)

/-- `Agent.hard_sync_targets`: full copies online→target critics,
online→target actor, online→maximized critics. -/
def hardSyncTargets (s : SyncState) : SyncState :=
  { s with
    targetCritics := fullCopy s.targetCritics s.critics
    targetActor := fullCopy s.targetActor s.actor
    maximizedCritics := fullCopy s.maximizedCritics s.critics }

/-- `Agent.soft_sync_targets`: EMA copies online→target critics and
online→target actor, full copy online→maximized critics. -/
def softSyncTargets (tau : ℚ) (s : SyncState) : SyncState :=
  { s with
    targetCritics := emaCopy tau s.targetCritics s.critics
    targetActor := emaCopy tau s.targetActor s.actor
    maximizedCritics := fullCopy s.maximizedCritics s.critics }

theorem fullCopy_eq : ∀ (t o : List ℚ), t.length = o.length → fullCopy t o = o
  | [], [], _ => rfl
  | _ :: ts, b :: os, h => by
    have ih := fullCopy_eq ts os (by simpa using h)
    simp [fullCopy] at ih ⊢
    exact ih

theorem emaCopy_getD (tau : ℚ) :
    ∀ (t o : List ℚ), t.length = o.length → ∀ i, i < t.length →
      (emaCopy tau t o).getD i 0 = t.getD i 0 * (1 - tau) + o.getD i 0 * tau
  | a :: ts, b :: os, h, 0, _ => by simp [emaCopy]
  | a :: ts, b :: os, h, i + 1, hi => by
    have ih := emaCopy_getD tau ts os (by simpa using h) i (by simpa using hi)
    simpa [emaCopy] using ih

/-- Claim C3: after `hard_sync_targets` the target critics, target actor and
maximized critics equal the online parameters exactly (so any function of
the parameters — in particular the network output on a fixed input — agrees
bit for bit); after one `soft_sync_targets` with rate `tau` every target
parameter equals `old_target * (1 - tau) + online * tau` while the
maximized critics are fully copied from the online critics; neither sync
modifies any online parameter. -/
theorem C3_target_sync (s : SyncState) (tau : ℚ)
    (htc : s.targetCritics.length = s.critics.length)
    (hta : s.targetActor.length = s.actor.length)
    (hmc : s.maximizedCritics.length = s.critics.length) :
    (hardSyncTargets s).targetCritics = s.critics ∧
    (hardSyncTargets s).targetActor = s.actor ∧
    (hardSyncTargets s).maximizedCritics = s.critics ∧
    (∀ f : List ℚ → ℚ, f (hardSyncTargets s).targetCritics = f s.critics) ∧
    (∀ i, i < s.targetCritics.length →
      (softSyncTargets tau s).targetCritics.getD i 0 =
        s.targetCritics.getD i 0 * (1 - tau) + s.critics.getD i 0 * tau) ∧
    (∀ i, i < s.targetActor.length →
      (softSyncTargets tau s).targetActor.getD i 0 =
        s.targetActor.getD i 0 * (1 - tau) + s.actor.getD i 0 * tau) ∧
    (softSyncTargets tau s).maximizedCritics = s.critics ∧
    (hardSyncTargets s).critics = s.critics ∧
    (hardSyncTargets s).actor = s.actor ∧
    (softSyncTargets tau s).critics = s.critics ∧
    (softSyncTargets tau s).actor = s.actor := by
  refine ⟨fullCopy_eq _ _ htc, fullCopy_eq _ _ hta, fullCopy_eq _ _ hmc,
    fun f => by rw [show (hardSyncTargets s).targetCritics = s.critics from
      fullCopy_eq _ _ htc],
    fun i hi => emaCopy_getD tau _ _ htc i hi,
    fun i hi => emaCopy_getD tau _ _ hta i hi,
    fullCopy_eq _ _ hmc, rfl, rfl, rfl, rfl⟩

/-- Witness for `C3_target_sync` at a concrete state. -/
theorem C3_target_sync_witness :
    (hardSyncTargets ⟨[2], [3], [5], [7], [11]⟩).targetCritics = [2] :=
  (C3_target_sync ⟨[2], [3], [5], [7], [11]⟩ (1/100) rfl rfl rfl).1

/-- Validity of one timestep (learning.py `compute_loss`):
`state_mask = (~((batch.rl2s == MAGIC_PAD_VAL).all(-1, keepdim=True))).float()`,
so a timestep's mask value is 0 iff its rl2 feature vector is entirely the
padding sentinel, else 1. -/
def stateMaskVal (pad : ℚ) (v : List ℚ) : ℚ :=
  if v.all (fun x => decide (x = pad)) then 0 else 1

/-- The actor validity mask, shape `(B, L-1, G, 1)` flattened row-major:
`state_mask[:, :-1]` repeated across the gamma axis. -/
def actorMaskList (pad : ℚ) (G : ℕ) (rl2s : List (List (List ℚ))) : List ℚ :=
  rl2s.flatMap (fun row => row.dropLast.flatMap
    (fun v => List.replicate G (stateMaskVal pad v)))

/-- The critic validity mask, shape `(B, L-1, C, G, 1)` flattened row-major:
`state_mask[:, 1:]` repeated across the critic and gamma axes. -/
def criticMaskList (pad : ℚ) (C G : ℕ) (rl2s : List (List (List ℚ))) : List ℚ :=
  rl2s.flatMap (fun row => (row.drop 1).flatMap
    (fun v => List.replicate (C * G) (stateMaskVal pad v)))

/-- Masked mean `(mask * loss).sum() / mask.sum()` as in learning.py
`compute_loss` — each loss divides by the sum of its own validity mask. -/
def maskedAvg (mask xs : List ℚ) : ℚ :=
  (List.zipWith (fun m x => m * x) mask xs).sum / mask.sum

theorem zipWith_mul_sum_congr :
    ∀ (mask l1 l2 : List ℚ),
      (∀ i, mask.getD i 0 ≠ 0 → l1.getD i 0 = l2.getD i 0) →
      (List.zipWith (fun m x => m * x) mask l1).sum =
        (List.zipWith (fun m x => m * x) mask l2).sum
  | [], _, _, _ => by simp
  | _ :: _, [], [], _ => by simp
  | m :: ms, [], b :: bs, h => by
    have htail := zipWith_mul_sum_congr ms [] bs (fun i hi => h (i + 1) hi)
    have hhead : m * b = 0 := by
      by_cases hm : m = 0
      · simp [hm]
      · have h0 := h 0 (by simpa using hm)
        simp at h0
        simp [← h0]
    simp only [List.zipWith_nil_right, List.zipWith_cons_cons, List.sum_nil,
      List.sum_cons] at htail ⊢
    rw [hhead, ← htail]
    norm_num
  | m :: ms, a :: as, [], h => by
    have htail := zipWith_mul_sum_congr ms as [] (fun i hi => h (i + 1) hi)
    have hhead : m * a = 0 := by
      by_cases hm : m = 0
      · simp [hm]
      · have h0 := h 0 (by simpa using hm)
        simp at h0
        simp [h0]
    simp only [List.zipWith_nil_right, List.zipWith_cons_cons, List.sum_nil,
      List.sum_cons] at htail ⊢
    rw [hhead, htail]
    norm_num
  | m :: ms, a :: as, b :: bs, h => by
    have htail := zipWith_mul_sum_congr ms as bs (fun i hi => h (i + 1) hi)
    have hhead : m * a = m * b := by
      by_cases hm : m = 0
      · simp [hm]
      · have := h 0 (by simpa using hm)
        simp at this
        rw [this]
    simp only [List.zipWith_cons_cons, List.sum_cons]
    rw [hhead, htail]

/-- Claim C4: the actor and critic losses are averaged against their own
validity masks (dividing by each mask's own sum), the mask value of a
timestep is 0 exactly when its rl2 vector is entirely the padding sentinel,
and perturbing loss values only at masked-out (padded) positions leaves
both masked losses unchanged. -/
theorem C4_masked_loss_invariance (pad : ℚ) (C G : ℕ)
    (rl2s : List (List (List ℚ))) (al1 al2 cl1 cl2 : List ℚ)
    (ha : ∀ i, (actorMaskList pad G rl2s).getD i 0 ≠ 0 →
      al1.getD i 0 = al2.getD i 0)
    (hc : ∀ i, (criticMaskList pad C G rl2s).getD i 0 ≠ 0 →
      cl1.getD i 0 = cl2.getD i 0) :
    maskedAvg (actorMaskList pad G rl2s) al1 =
      maskedAvg (actorMaskList pad G rl2s) al2 ∧
    maskedAvg (criticMaskList pad C G rl2s) cl1 =
      maskedAvg (criticMaskList pad C G rl2s) cl2 ∧
    (∀ v, stateMaskVal pad v = 0 ↔ v.all (fun x => decide (x = pad)) = true) := by
  refine ⟨?_, ?_, fun v => ?_⟩
  · unfold maskedAvg
    rw [zipWith_mul_sum_congr _ _ _ ha]
  · unfold maskedAvg
    rw [zipWith_mul_sum_congr _ _ _ hc]
  · unfold stateMaskVal
    by_cases hv : v.all (fun x => decide (x = pad)) = true
    · simp [hv]
    · simp [hv]

/-- Witness for `C4_masked_loss_invariance`: one batch element, two
timesteps, the first timestep fully padded; the actor losses 5 and 9 differ
only at that padded position yet share the same masked mean. -/
theorem C4_masked_loss_invariance_witness :
    maskedAvg (actorMaskList 7 1 [[[7], [1]]]) [5] =
      maskedAvg (actorMaskList 7 1 [[[7], [1]]]) [9] := by
  have hmask : actorMaskList 7 1 [[[7], [1]]] = [0] := by
    norm_num [actorMaskList, stateMaskVal]
  refine (C4_masked_loss_invariance 7 1 1 [[[7], [1]]] [5] [9] [2] [2]
    (fun i hi => absurd ?_ hi) (fun _ _ => rfl)).1
  rw [hmask]
  match i with
  | 0 => rfl
  | n + 1 => rfl

/-- `binary_filter(adv, threshold=0.0)`: `adv > threshold`
(src/amago/agent.py). -/
def binary_filter (adv : ℚ) (threshold : ℚ := 0) : Bool :=
  decide (threshold < adv)

/-- The advantage filter of the scalar `Agent.forward` FBC path:
`filter_ = (advantage_a_s_g > 1e-3).float()` — a hardcoded comparison
against `1e-3`, not a call to a pluggable predicate. -/
def scalarAdvantageFilter (adv : ℚ) : Bool :=
  decide ((1 : ℚ) / 1000 < adv)

/-- The advantage filter of `MultiTaskAgent.forward`:
`filter_ = self.fbc_filter_func(advantage_s_a)` — the predicate `f` is the
pluggable `fbc_filter_func` constructor argument (default `binary_filter`). -/
def multiTaskFilter (f : ℚ → Bool) (adv : ℚ) : Bool := f adv

/-- `clamp(lo, hi)` on rationals, as used for log-probabilities
(`logp_a.clamp(-1e3, 1e3)`). -/
def clampQ (x lo hi : ℚ) : ℚ := max lo (min x hi)

/-- One timestep's contribution to the FBC actor loss:
`offline_coeff * -(filter_.detach() * logp_a)` with the clamped
log-probability. -/
def fbcLossTerm (offlineCoeff : ℚ) (flt : Bool) (logp : ℚ) : ℚ :=
  offlineCoeff * -((if flt then (1 : ℚ) else 0) * clampQ logp (-1000) 1000)

/-- Scalar-variant advantage (`Agent.forward` Step 7, `k = 1`):
`advantage_a_s_g = q_s_a_g.mean(2) - q_s_a_agent_g.mean(2)`. -/
def advantageScalar (qsa qsagent : List ℚ) : ℚ :=
  listMean qsa - listMean qsagent

/-- MultiTask-variant value baseline: `K` actor samples, ensemble-mean per
sample, then mean over the `K` samples. -/
def valSMultiTask (K : ℕ) (qPerSample : ℕ → List ℚ) : ℚ :=
  listMean ((List.range K).map (fun k => listMean (qPerSample k)))

/-- MultiTask-variant advantage:
`advantage_s_a = q_s_a_g.mean(2) - val_s`. -/
def advantageMultiTask (qsa : List ℚ) (K : ℕ) (qPerSample : ℕ → List ℚ) : ℚ :=
  listMean qsa - valSMultiTask K qPerSample

/-- Claim C5 counterexample: at advantage `1/2000` (positive but below
`1e-3`) the scalar variant's hardcoded filter rejects while `binary_filter`
with its default threshold 0 accepts — so the scalar variant's predicate is
not the pluggable `binary_filter` of the claim. -/
theorem C5_counterexample :
    scalarAdvantageFilter (1/2000) ≠ binary_filter (1/2000) := by
  have h1 : scalarAdvantageFilter (1/2000) = false := by
    simp only [scalarAdvantageFilter, decide_eq_false_iff_not]
    norm_num
  have h2 : binary_filter (1/2000) = true := by
    simp only [binary_filter, decide_eq_true_eq]
    norm_num
  rw [h1, h2]
  simp

/-- Claim C5 (amended): a timestep whose advantage fails the filter
contributes exactly zero to the FBC actor loss in both variants; the
predicate is pluggable (`fbc_filter_func`, default `binary_filter` with
threshold 0) only in the distributional `MultiTaskAgent`, while the scalar
`Agent` hardcodes the comparison `advantage > 1e-3` (which coincides with
`binary_filter` at threshold `1e-3`, not at the default 0). -/
theorem C5_advantage_filter (f : ℚ → Bool) (adv logp offline : ℚ) :
    (scalarAdvantageFilter adv = false →
      fbcLossTerm offline (scalarAdvantageFilter adv) logp = 0) ∧
    (multiTaskFilter f adv = false →
      fbcLossTerm offline (multiTaskFilter f adv) logp = 0) ∧
    multiTaskFilter binary_filter adv = binary_filter adv ∧
    binary_filter adv = decide ((0 : ℚ) < adv) ∧
    scalarAdvantageFilter adv = binary_filter adv (1/1000) := by
  refine ⟨fun h => ?_, fun h => ?_, rfl, rfl, rfl⟩
  · rw [fbcLossTerm, h]
    norm_num
  · rw [fbcLossTerm, h]
    norm_num

/-- Witness for `C5_advantage_filter` at a concrete input. -/
theorem C5_advantage_filter_witness :
    fbcLossTerm 1 (scalarAdvantageFilter 0) 4 = 0 :=
  (C5_advantage_filter binary_filter 0 4 1).1 (by
    simp only [scalarAdvantageFilter, decide_eq_false_iff_not]
    norm_num)

/-- The operations of `Experiment.train_step` (src/amago/learning.py), in
program order. -/
inductive TrainEvent where
  | zeroGrad
  | computeLoss
  | backwardPass
  | clipGrad
  | softSync
  | optimizerStep
deriving DecidableEq

/-- The straight-line trace of one `Experiment.train_step` call:
`optimizer.zero_grad()`; `compute_loss`; `accelerator.backward(loss)`;
then, when `accelerator.sync_gradients`, `clip_grad_norm_` and
`policy.soft_sync_targets()`; finally `optimizer.step()`. -/
def trainStepTrace (syncGradients : Bool) : List TrainEvent :=
  [.zeroGrad, .computeLoss, .backwardPass] ++
    (if syncGradients then [.clipGrad, .softSync] else []) ++
    [.optimizerStep]

/-- Claim C6 counterexample: in the train-step trace (with gradients
syncing), `soft_sync_targets` does not come after `optimizer.step()` — its
index precedes the optimizer step's, refuting the claimed order
backward → optimizer step → soft sync. -/
theorem C6_counterexample :
    ¬ (trainStepTrace true).indexOf TrainEvent.optimizerStep <
        (trainStepTrace true).indexOf TrainEvent.softSync := by
  decide

/-- Claim C6 (amended): within one training step (with gradients syncing),
the order is backward pass, then `soft_sync_targets`, then the optimizer
step — the target soft sync happens after backward but *before*
`optimizer.step()`; without gradient syncing no soft sync occurs. -/
theorem C6_train_step_order :
    (trainStepTrace true).indexOf TrainEvent.backwardPass <
        (trainStepTrace true).indexOf TrainEvent.softSync ∧
    (trainStepTrace true).indexOf TrainEvent.softSync <
        (trainStepTrace true).indexOf TrainEvent.optimizerStep ∧
    TrainEvent.softSync ∈ trainStepTrace true ∧
    TrainEvent.softSync ∉ trainStepTrace false := by
  decide

/-- The action-space variants `Agent.__init__` distinguishes, plus the
fall-through case of its `isinstance` chain. -/
inductive ActionSpaceKind where
  | discrete (n : ℕ)
  | multibinary (n : ℕ)
  | box (shape : List ℕ)
  | unsupported (descr : String)

/-- The `action_dim` resolution of `Agent.__init__`: an explicit
`action_dim` bypasses the `isinstance` chain; otherwise `Discrete`/
`MultiBinary` use `n`, `Box` uses `shape[-1]`, and anything else raises
`ValueError("Unsupported action space: ...")`. -/
def resolveActionDim : ActionSpaceKind → Option ℕ → Except String ℕ
  | _, some d => .ok d
  | .discrete n, none => .ok n
  | .multibinary n, none => .ok n
  | .box shape, none => .ok (shape.getLastD 0)
  | .unsupported descr, none => .error ("Unsupported action space: " ++ descr)

/-- `Agent.__init__` construction-time checks: action-dim resolution,
then `assert num_critics_td <= num_critics`. -/
def initAgentChecks (space : ActionSpaceKind) (actionDim : Option ℕ)
    (numCritics numCriticsTd : ℕ) : Except String ℕ :=
  match resolveActionDim space actionDim with
  | .error e => .error e
  | .ok d =>
    if numCriticsTd ≤ numCritics then .ok d
    else .error "assert num_critics_td <= num_critics"

/-- The `Agent.forward` Step 6 guard: when `online_coeff > 0`,
`assert self.actor.actions_differentiable`. -/
def forwardOnlineCheck (onlineCoeff : ℚ) (actionsDifferentiable : Bool) :
    Except String Unit :=
  if 0 < onlineCoeff then
    if actionsDifferentiable then .ok ()
    else .error "online-style actor loss is not compatible with action distribution"
  else .ok ()

/-- Whether an `Except` value is the error case. -/
def isError : Except String ℕ → Bool
  | .error _ => true
  | .ok _ => false

/-- Whether an `Except Unit` value is the error case. -/
def isErrorU : Except String Unit → Bool
  | .error _ => true
  | .ok _ => false

/-- Claim C7: each misconfiguration fails loudly — an unsupported action
space (with no explicit `action_dim`) raises during construction,
`num_critics_td > num_critics` fails the construction assertion, and a
positive online coefficient with a non-differentiable actor variant fails
the forward-pass assertion. -/
theorem C7_config_errors (descr : String) (space : ActionSpaceKind)
    (actionDim : Option ℕ) (numCritics numCriticsTd : ℕ) (coeff : ℚ) :
    isError (initAgentChecks (.unsupported descr) none numCritics numCriticsTd)
      = true ∧
    (numCritics < numCriticsTd →
      isError (initAgentChecks space actionDim numCritics numCriticsTd) = true) ∧
    (0 < coeff → isErrorU (forwardOnlineCheck coeff false) = true) := by
  refine ⟨rfl, fun hlt => ?_, fun hc => ?_⟩
  · unfold initAgentChecks
    cases hres : resolveActionDim space actionDim with
    | error e => rfl
    | ok d =>
      have : ¬ numCriticsTd ≤ numCritics := by omega
      simp [this, isError]
  · unfold forwardOnlineCheck
    simp [hc, isErrorU]

/-- Witness for `C7_config_errors` at a concrete input. -/
theorem C7_config_errors_witness :
    isError (initAgentChecks (.discrete 4) none 4 5) = true :=
  (C7_config_errors "Box2D" (.discrete 4) none 4 5 1).2.1 (by decide)

/-- The `critic_loss` value produced by the forward pass: a loss tensor
when `not self.fake_filter or self.online_coeff > 0`, else the initial
`None`. -/
inductive CriticLossOut where
  | noneLoss
  | tensor (flat : List ℚ)

/-- `Agent.forward`'s critic loss: computed exactly under
`not self.fake_filter or self.online_coeff > 0` (else it stays `None`). -/
def forwardCriticLoss (fakeFilter : Bool) (onlineCoeff : ℚ)
    (lossIfComputed : List ℚ) : CriticLossOut :=
  if ¬ fakeFilter = true ∨ 0 < onlineCoeff then .tensor lossIfComputed
  else .noneLoss

/-- A value of the returned loss mapping: a scalar, or Python `None`. -/
inductive LossEntry where
  | scalar (x : ℚ)
  | noneEntry
deriving DecidableEq

/-- The `critic_loss` entry built by `Experiment.compute_loss` /
`Agent._compute_loss`: the masked average of the loss tensor when one was
computed, and the float `0.0` (not `None`) otherwise. -/
def criticLossEntry (mask : List ℚ) : CriticLossOut → LossEntry
  | .tensor t => .scalar (maskedAvg mask t)
  | .noneLoss => .scalar 0

/-- The loss mapping returned by one update: the `critic_loss` entry, the
`actor_loss` scalar (masked average of the actor loss), and the validity
`mask`. -/
def computeLossDict (fakeFilter : Bool) (onlineCoeff : ℚ)
    (criticLossTensor actorLoss criticMask actorMask stateMask : List ℚ) :
    LossEntry × ℚ × List ℚ :=
  (criticLossEntry criticMask (forwardCriticLoss fakeFilter onlineCoeff criticLossTensor),
   maskedAvg actorMask actorLoss,
   stateMask)

/-- Claim C8 counterexample: with `fake_filter = True` and
`online_coeff = 0` (critic learning disabled) the returned mapping's
`critic_loss` entry is the scalar `0.0`, not `None` as the claim states. -/
theorem C8_counterexample :
    (computeLossDict true 0 [] [] [] [] []).1 = LossEntry.scalar 0 ∧
    (computeLossDict true 0 [] [] [] [] []).1 ≠ LossEntry.noneEntry := by
  constructor
  · rfl
  · intro h
    exact LossEntry.noConfusion (by
      have : LossEntry.scalar 0 = LossEntry.noneEntry := h
      exact this)

/-- Claim C8 (amended): the forward pass's internal `critic_loss` is `None`
exactly when `fake_filter` is set and the online coefficient is not
positive, but the mapping returned by one update replaces it by the scalar
`0.0` in that case, so the returned `critic_loss` entry is always a scalar
(the masked average when critic learning is enabled, `0.0` otherwise),
alongside the scalar `actor_loss` and the validity `mask`. -/
theorem C8_loss_dict (fakeFilter : Bool) (coeff : ℚ)
    (criticLossTensor actorLoss criticMask actorMask stateMask : List ℚ) :
    (forwardCriticLoss fakeFilter coeff criticLossTensor = .noneLoss ↔
      (fakeFilter = true ∧ ¬ 0 < coeff)) ∧
    (computeLossDict fakeFilter coeff criticLossTensor actorLoss criticMask
        actorMask stateMask).1 =
      (if fakeFilter = true ∧ ¬ 0 < coeff then LossEntry.scalar 0
       else LossEntry.scalar (maskedAvg criticMask criticLossTensor)) ∧
    (computeLossDict fakeFilter coeff criticLossTensor actorLoss criticMask
        actorMask stateMask).2.1 = maskedAvg actorMask actorLoss ∧
    (computeLossDict fakeFilter coeff criticLossTensor actorLoss criticMask
        actorMask stateMask).2.2 = stateMask := by
  refine ⟨?_, ?_, rfl, rfl⟩
  · unfold forwardCriticLoss
    by_cases hdis : ¬ fakeFilter = true ∨ 0 < coeff
    · simp only [if_pos hdis]
      constructor
      · intro h
        exact CriticLossOut.noConfusion h
      · intro h
        rcases hdis with h1 | h2
        · exact absurd h.1 h1
        · exact absurd h2 h.2
    · simp only [if_neg hdis]
      push_neg at hdis
      simp [hdis.1, hdis.2]
  · unfold computeLossDict criticLossEntry forwardCriticLoss
    by_cases hdis : ¬ fakeFilter = true ∨ 0 < coeff
    · have : ¬ (fakeFilter = true ∧ ¬ 0 < coeff) := by tauto
      simp only [if_pos hdis, if_neg this]
    · have : fakeFilter = true ∧ ¬ 0 < coeff := by tauto
      simp only [if_neg hdis, if_pos this]

/-- Maximum reduction of a list, as in `torch.max`; 0 on the empty list. -/
def listMax : List ℚ → ℚ
  | [] => 0
  | x :: xs => xs.foldl max x

/-- `torch.argmax` along the last dim: the index of the first occurrence
of the maximum value. -/
def argmaxIdx : List ℚ → ℕ
  | [] => 0
  | [_] => 0
  | x :: y :: xs => if listMax (y :: xs) ≤ x then 0 else argmaxIdx (y :: xs) + 1

theorem le_foldl_max : ∀ (l : List ℚ) (a : ℚ), a ≤ l.foldl max a
  | [], a => le_refl a
  | x :: xs, a => le_trans (le_max_left a x) (le_foldl_max xs (max a x))

theorem mem_le_foldl_max : ∀ (l : List ℚ) (a x : ℚ), x ∈ l → x ≤ l.foldl max a
  | y :: ys, a, x, h => by
    rcases List.mem_cons.mp h with h1 | h2
    · subst h1
      exact le_trans (le_max_right a x) (le_foldl_max ys _)
    · exact mem_le_foldl_max ys (max a y) x h2

theorem mem_le_listMax (l : List ℚ) (x : ℚ) (h : x ∈ l) : x ≤ listMax l := by
  cases l with
  | nil => simp at h
  | cons y ys =>
    rcases List.mem_cons.mp h with h1 | h2
    · subst h1
      exact le_foldl_max ys x
    · exact mem_le_foldl_max ys y x h2

theorem foldl_max_assoc :
    ∀ (l : List ℚ) (a b : ℚ), l.foldl max (max a b) = max a (l.foldl max b)
  | [], _, _ => rfl
  | x :: xs, a, b => by
    simp only [List.foldl_cons]
    rw [max_assoc a b x]
    exact foldl_max_assoc xs a (max b x)

theorem listMax_cons_cons (x y : ℚ) (xs : List ℚ) :
    listMax (x :: y :: xs) = max x (listMax (y :: xs)) := by
  show (y :: xs).foldl max x = max x (xs.foldl max y)
  simp only [List.foldl_cons]
  have := foldl_max_assoc xs x y
  simpa using this

theorem argmaxIdx_spec : ∀ (l : List ℚ), l ≠ [] →
    l.getD (argmaxIdx l) 0 = listMax l
  | [x], _ => by simp [argmaxIdx, listMax]
  | x :: y :: xs, _ => by
    rw [listMax_cons_cons]
    by_cases h : listMax (y :: xs) ≤ x
    · simp only [argmaxIdx, if_pos h]
      simp [max_eq_left h]
    · simp only [argmaxIdx, if_neg h]
      have hih := argmaxIdx_spec (y :: xs) (by simp)
      have hmax : max x (listMax (y :: xs)) = listMax (y :: xs) :=
        max_eq_right (le_of_lt (not_le.mp h))

      rw [hmax, ← hih]
      rfl

theorem getD_le_listMax (l : List ℚ) (j : ℕ) (hj : j < l.length) :
    l.getD j 0 ≤ listMax l := by
  rw [List.getD_eq_getElem l 0 hj]
  exact mem_le_listMax l _ (List.getElem_mem hj)

/-- The numpy dtype of the array returned by `Agent.get_actions`. -/
inductive DType where
  | uint8
  | float32
deriving DecidableEq

/-- The result of `Agent.get_actions`: the primary-gamma action array, its
fixed dtype, and the updated hidden state. -/
structure GetActionsOut where
  actions : List ℚ
  dtype : DType
  hidden : List ℚ

/-- The per-gamma action selection of `Agent.get_actions`: sampling when
`sample`, otherwise `argmax(action_dists.probs)` for discrete spaces and
`action_dists.mean` otherwise. Each entry of the outer list is one gamma
slot's action vector. -/
def getActionsSelect (discrete sample : Bool)
    (sampled probs means : List (List ℚ)) : List (List ℚ) :=
  if sample then sampled
  else if discrete then probs.map (fun p => [(argmaxIdx p : ℚ)])
  else means

/-- `Agent.get_actions` after selection: keep only the primary-gamma slice
`actions[..., -1, :]` (the last gamma index), cast to `uint8` for discrete
spaces and `float32` otherwise, and return the updated hidden state from
the trajectory encoder. -/
def getActionsModel (discrete sample : Bool)
    (sampled probs means : List (List ℚ)) (hiddenUpdated : List ℚ) :
    GetActionsOut :=
  { actions := (getActionsSelect discrete sample sampled probs means).getLastD []
    dtype := if discrete then .uint8 else .float32
    hidden := hiddenUpdated }

theorem getLastD_map_of_ne_nil (f : List ℚ → List ℚ) :
    ∀ (l : List (List ℚ)), l ≠ [] →
      (l.map f).getLastD [] = f (l.getLastD [])
  | [x], _ => rfl
  | x :: y :: ys, _ => by
    have hih := getLastD_map_of_ne_nil f (y :: ys) (by simp)
    simpa using hih

/-- Claim C9: with `sample = False`, `get_actions` selects the argmax
action index for discrete spaces (attaining the distribution's peak
probability) and the distribution mean otherwise; in every mode the result
is the primary-gamma (last gamma index) slice of the per-gamma actions with
fixed dtype `uint8` for discrete and `float32` otherwise, returned with
the updated hidden state. -/
theorem C9_get_actions (discrete sample : Bool)
    (sampled probs means : List (List ℚ)) (hiddenUpdated : List ℚ)
    (hp : probs ≠ []) (hplast : probs.getLastD [] ≠ []) :
    (sample = false → discrete = true →
      (getActionsModel discrete sample sampled probs means hiddenUpdated).actions =
        [(argmaxIdx (probs.getLastD []) : ℚ)] ∧
      ∀ j, j < (probs.getLastD []).length →
        (probs.getLastD []).getD j 0 ≤
          (probs.getLastD []).getD (argmaxIdx (probs.getLastD [])) 0) ∧
    (sample = false → discrete = false →
      (getActionsModel discrete sample sampled probs means hiddenUpdated).actions =
        means.getLastD []) ∧
    (sample = true →
      (getActionsModel discrete sample sampled probs means hiddenUpdated).actions =
        sampled.getLastD []) ∧
    (getActionsModel discrete sample sampled probs means hiddenUpdated).dtype =
      (if discrete = true then DType.uint8 else DType.float32) ∧
    (getActionsModel discrete sample sampled probs means hiddenUpdated).hidden =
      hiddenUpdated := by
  refine ⟨fun hs hd => ⟨?_, fun j hj => ?_⟩, fun hs hd => ?_, fun hs => ?_, ?_, rfl⟩
  · show (getActionsSelect discrete sample sampled probs means).getLastD [] = _
    rw [getActionsSelect, hs, hd]
    simp only [Bool.false_eq_true, if_false, if_true]
    exact getLastD_map_of_ne_nil _ probs hp
  · rw [argmaxIdx_spec _ hplast]
    exact getD_le_listMax _ j hj
  · show (getActionsSelect discrete sample sampled probs means).getLastD [] = _
    rw [getActionsSelect, hs, hd]
    simp
  · show (getActionsSelect discrete sample sampled probs means).getLastD [] = _
    rw [getActionsSelect, hs]
    simp
  · rfl

/-- Witness for `C9_get_actions` at a concrete input: a 3-action discrete
space, deterministic mode, probabilities peaking at index 1. -/
theorem C9_get_actions_witness :
    (getActionsModel true false [] [[1, 3, 2]] [[0]] [42]).actions =
      [(argmaxIdx ([[1, 3, 2]].getLastD []) : ℚ)] :=
  ((C9_get_actions true false [] [[1, 3, 2]] [[0]] [42] (by simp)
    (by simp)).1 rfl rfl).1

/-- A sequence input of `Agent.get_current_timestep`: either a bare tensor
`(B, L, ...)` or a dict of such tensors. -/
inductive SeqInput where
  | tensor (t : List (List ℚ))
  | dict (kvs : List (String × List (List ℚ)))

/-- `torch.take_along_dim(v, seq_lengths - 1, dim=1)` with the index
broadcast over trailing dims: for each batch row, the length-1 time slice
at index `seq_lengths - 1`. -/
def takeTimestep (v : List (List ℚ)) (seqLengths : List ℕ) : List (List ℚ) :=
  (v.zip seqLengths).map (fun p => [p.1.getD (p.2 - 1) 0])

/-- `Agent.get_current_timestep`: a bare tensor is wrapped in a one-key
dict, each value is sliced with `take_along_dim`, and the original
structure is restored. -/
def getCurrentTimestep : SeqInput → List ℕ → SeqInput
  | .tensor t, sl => .tensor (takeTimestep t sl)
  | .dict kvs, sl => .dict (kvs.map (fun kv => (kv.1, takeTimestep kv.2 sl)))

/-- Claim C10: for every batch element `b` with a valid sequence length
(at least 1 and at most the row length), `get_current_timestep` returns
exactly the length-1 time slice at index `seq_lengths - 1` of that row, a
bare tensor stays a bare tensor, and a dict keeps its keys (with each value
sliced the same way). The embedding is a pure function, so the inputs are
left unmodified. -/
theorem C10_get_current_timestep (v : List (List ℚ)) (sl : List ℕ)
    (kvs : List (String × List (List ℚ))) (b : ℕ)
    (hb : b < v.length) (hbs : b < sl.length)
    (h1 : 1 ≤ sl.getD b 0) (h2 : sl.getD b 0 ≤ (v.getD b []).length) :
    (takeTimestep v sl).getD b [] =
      [(v.getD b []).getD (sl.getD b 0 - 1) 0] ∧
    ((takeTimestep v sl).getD b []).length = 1 ∧
    getCurrentTimestep (.tensor v) sl = .tensor (takeTimestep v sl) ∧
    getCurrentTimestep (.dict kvs) sl =
      .dict (kvs.map (fun kv => (kv.1, takeTimestep kv.2 sl))) ∧
    (kvs.map (fun kv => (kv.1, takeTimestep kv.2 sl))).map Prod.fst =
      kvs.map Prod.fst := by
  have hbz : b < (v.zip sl).length := by
    rw [List.length_zip]
    omega
  have hfirst : (takeTimestep v sl).getD b [] =
      [(v.getD b []).getD (sl.getD b 0 - 1) 0] := by
    unfold takeTimestep
    rw [List.getD_eq_getElem _ _ (by simpa using hbz)]
    simp only [List.getElem_map, List.getElem_zip]
    rw [List.getD_eq_getElem v [] hb, List.getD_eq_getElem sl 0 hbs]
  refine ⟨hfirst, by rw [hfirst]; rfl, rfl, rfl, by simp⟩

/-- Witness for `C10_get_current_timestep` at a concrete input. -/
theorem C10_get_current_timestep_witness :
    (takeTimestep [[4, 5]] [2]).getD 0 [] =
      [(([[4, 5]] : List (List ℚ)).getD 0 []).getD
        (([2] : List ℕ).getD 0 0 - 1) 0] :=
  (C10_get_current_timestep [[4, 5]] [2] [] 0 (by simp) (by simp)
    (by simp) (by simp)).1

end AmagoSpec
